import Mathlib

/-!
Verification of the alert-system backend (component scraper, crawl
orchestrator and Teams digest builder) against its natural-language
specification.

The Python sources are shallowly embedded:
* text handled by the normalizer is represented as a list of Unicode code
  points (`PyStr`), so that NFKD decomposition and the ASCII projection can
  be stated faithfully;
* Python dicts become association lists with dict update semantics
  (replace-in-place when the key exists, append otherwise);
* code that can raise returns `Except String _`, the error string naming the
  Python exception;
* the dynamically typed arguments of `_normalize_text` become the `PyVal`
  variant type.
-/

/-! ## Text normalizer (`scraper.py`, `_normalize_text` / `_partial_match`) -/

/-- A Python `str`, as the list of its Unicode code points. -/
abbrev PyStr := List Nat

/-- NFKD decomposition of one code point.  Modelled: a finite fragment of the
Unicode decomposition table (enough for the accented characters the scraper
meets), every unlisted code point decomposing to itself.  All code points
below 128 decompose to themselves, exactly as in Unicode, where no ASCII
character carries a decomposition mapping. -/
def nfkd_decomp (c : Nat) : List Nat :=
  if c < 128 then [c]
  else if c = 0xE9 then [0x65, 0x301]      -- é → e + combining acute
  else if c = 0xE1 then [0x61, 0x301]      -- á → a + combining acute
  else if c = 0xF3 then [0x6F, 0x301]      -- ó → o + combining acute
  else if c = 0xF1 then [0x6E, 0x303]      -- ñ → n + combining tilde
  else if c = 0xC9 then [0x45, 0x301]      -- É → E + combining acute
  else if c = 0xA0 then [0x20]             -- NBSP → space (compatibility)
  else if c = 0xFB01 then [0x66, 0x69]     -- ﬁ → f + i (compatibility)
  else if c = 0xB2 then [0x32]             -- ² → 2 (compatibility)
  else [c]

/-- `unicodedata.normalize('NFKD', s)`: decompose every code point.  The
canonical reordering of combining marks is omitted; it permutes only
non-ASCII code points, which the next stage deletes, so it is invisible to
the scraper. -/
def pyNFKD : PyStr → PyStr
  | [] => []
  | c :: cs => nfkd_decomp c ++ pyNFKD cs

/-- `.encode('ascii', 'ignore').decode('ascii')`: drop every code point
outside ASCII. -/
def ascii_ignore (s : PyStr) : PyStr := s.filter (fun c => c < 128)

/-- `str.lower()` restricted to ASCII input, which is all the scraper ever
lowercases (the call sits after the ASCII projection). -/
def ascii_lower (c : Nat) : Nat := if 65 ≤ c ∧ c ≤ 90 then c + 32 else c

/-- `ComponentScraper._normalize_text` on an argument that is a string:
NFKD-decompose, strip non-ASCII, lowercase. -/
def normalize_text (s : PyStr) : PyStr := (ascii_ignore (pyNFKD s)).map ascii_lower

/-- A dynamically typed Python value, as `_normalize_text` may receive one. -/
inductive PyVal where
  | pstr (s : PyStr)
  | pnone
  | pint (n : Int)
  | plist (l : List Nat)
  deriving DecidableEq, Repr

/-- `ComponentScraper._normalize_text` as called on an arbitrary Python
value: `unicodedata.normalize('NFKD', text)` raises `TypeError` whenever
`text` is not a `str` (the function has no guard before the call). -/
def normalize_text_dyn : PyVal → Except String PyStr
  | .pstr s => .ok (normalize_text s)
  | _ => .error "TypeError: normalize() argument 2 must be str"

/-- `hay.startswith(needle)` on code-point lists (first argument the
needle). -/
def starts_with : PyStr → PyStr → Bool
  | [], _ => true
  | _ :: _, [] => false
  | a :: as, b :: bs => a == b && starts_with as bs

/-- Python `needle in hay` for strings: contiguous-substring test. -/
def contains_seq (needle : PyStr) : PyStr → Bool
  | [] => starts_with needle []
  | h :: t => starts_with needle (h :: t) || contains_seq needle t

/-- `ComponentScraper._partial_match`: the normalized pattern occurs inside
the normalized text. -/
def partial_match (text pattern : PyStr) : Bool :=
  contains_seq (normalize_text pattern) (normalize_text text)

theorem nfkd_decomp_ascii {c : Nat} (h : c < 128) : nfkd_decomp c = [c] := by
  simp [nfkd_decomp, h]

theorem pyNFKD_ascii {t : PyStr} (h : ∀ c ∈ t, c < 128) : pyNFKD t = t := by
  induction t with
  | nil => rfl
  | cons c cs ih =>
    have hc : c < 128 := h c (by simp)
    simp [pyNFKD, nfkd_decomp_ascii hc, ih fun d hd => h d (by simp [hd])]

theorem ascii_lower_lt {c : Nat} (h : c < 128) : ascii_lower c < 128 := by
  unfold ascii_lower; split <;> omega

theorem ascii_lower_not_upper (c : Nat) : ¬(65 ≤ ascii_lower c ∧ ascii_lower c ≤ 90) := by
  unfold ascii_lower; split <;> omega

theorem ascii_lower_idem (c : Nat) : ascii_lower (ascii_lower c) = ascii_lower c := by
  by_cases h : 65 ≤ c ∧ c ≤ 90
  · have h1 : ascii_lower c = c + 32 := by simp [ascii_lower, h]
    have h2 : ascii_lower (c + 32) = c + 32 := by
      simp only [ascii_lower, ite_eq_right_iff]
      omega
    rw [h1, h2]
  · have h1 : ascii_lower c = c := by simp [ascii_lower, h]
    rw [h1]
    exact h1

theorem list_map_fixed {f : Nat → Nat} :
    ∀ {l : List Nat}, (∀ c ∈ l, f c = c) → l.map f = l
  | [], _ => rfl
  | c :: cs, h => by
    have hc := h c (by simp)
    have hcs := list_map_fixed (l := cs) fun d hd => h d (by simp [hd])
    simp [hc, hcs]

theorem normalize_text_mem {s : PyStr} {c : Nat} (h : c ∈ normalize_text s) :
    c < 128 ∧ ¬(65 ≤ c ∧ c ≤ 90) := by
  unfold normalize_text at h
  obtain ⟨d, hd, rfl⟩ := List.mem_map.1 h
  have hdlt : d < 128 := by
    have := List.mem_filter.1 hd
    simpa using this.2
  exact ⟨ascii_lower_lt hdlt, ascii_lower_not_upper d⟩

/-- C9: normalization is idempotent — `normalize(normalize(s)) = normalize(s)`
for every string `s`, where `normalize` is `_normalize_text`'s
NFKD-decompose / strip-non-ASCII / lowercase pipeline. -/
theorem C9_normalize_idempotent (s : PyStr) :
    normalize_text (normalize_text s) = normalize_text s := by
  have hmem := fun c h => normalize_text_mem (s := s) (c := c) h
  conv_lhs => rw [normalize_text]
  rw [pyNFKD_ascii (fun c h => (hmem c h).1)]
  rw [ascii_ignore, List.filter_eq_self.2 (fun c h => by simpa using (hmem c h).1)]
  exact list_map_fixed fun c hc => by simp [ascii_lower, (hmem c hc).2]

/-! ## Document model and component matcher (`scraper.py`)

A parsed document is a list of root elements.  Each element carries its
attribute list, its `class` attribute (absent, or a list of class tokens as
BeautifulSoup multi-valued attributes are parsed), its visible text as
`get_text(strip=True)` returns it, and its children.  `find_all` walks the
tree in document (preorder) order, exactly as BeautifulSoup's
`descendants` iterator does. -/

inductive Element where
  | mk (attrs : List (String × String)) (class_attr : Option (List String))
       (stripped_text : PyStr) (children : List Element)
  deriving Repr

def Element.attrs : Element → List (String × String)
  | .mk a _ _ _ => a

def Element.class_attr : Element → Option (List String)
  | .mk _ c _ _ => c

def Element.stripped_text : Element → PyStr
  | .mk _ _ t _ => t

def Element.children : Element → List Element
  | .mk _ _ _ ch => ch

/-- `el.get(name)`: the first binding of the attribute. -/
def get_attr (el : Element) (name : String) : Option String :=
  (el.attrs.find? (fun p => p.1 = name)).map Prod.snd

mutual
/-- One node followed by its descendants, in document order. -/
def node_preorder : Element → List Element
  | .mk a c t ch => .mk a c t ch :: forest_preorder ch
/-- All nodes of a forest in document order: what BeautifulSoup's
`find_all` iterates over when called on the soup (for the whole document)
or on a tag's `children` forest (for the tag's descendants). -/
def forest_preorder : List Element → List Element
  | [] => []
  | e :: es => node_preorder e ++ forest_preorder es
end

/-- The descendants of an element, in document order (`el.find_all`'s
search space: the element itself is not included). -/
def descendants (el : Element) : List Element := forest_preorder el.children

/-- Python `value.split()`: split on whitespace runs, no empty tokens. -/
def py_split_go : List Char → List Char → List String
  | [], acc => if acc.isEmpty then [] else [String.mk acc.reverse]
  | c :: cs, acc =>
    if c.isWhitespace then
      if acc.isEmpty then py_split_go cs [] else String.mk acc.reverse :: py_split_go cs []
    else py_split_go cs (c :: acc)

def py_split (s : String) : List String := py_split_go s.data []

/-- `" ".join(markup)` as BeautifulSoup builds it for a multi-valued
attribute. -/
def join_spaces (l : List String) : String := String.intercalate " " l

/-- BeautifulSoup's `SoupStrainer._matches` for the multi-valued `class`
attribute against a LIST filter (what `find_all(class_=[t1, t2, ...])`
uses): the element matches when any one of its classes equals any filter
token, or when its space-joined class string equals a token; an element
without a `class` attribute matches only the empty filter list. -/
def class_list_match (cls : Option (List String)) (filt : List String) : Bool :=
  match cls with
  | none => filt.isEmpty
  | some cs => cs.any (fun c => filt.contains c) || filt.contains (join_spaces cs)

/-- `SoupStrainer._matches` for `class` against a single STRING filter
(what `find_all(class_=container_class)` uses). -/
def class_str_match (cls : Option (List String)) (c : String) : Bool :=
  match cls with
  | none => c = ""
  | some cs => cs.contains c || join_spaces cs = c

/-- `soup.find(attrs={name: value})` element test: the attribute equals the
value (a missing attribute matches only a falsy — empty — filter value,
per `SoupStrainer._matches`). -/
def attr_match (el : Element) (name value : String) : Bool :=
  match get_attr el name with
  | none => value = ""
  | some v => v = value

/-- `ComponentScraper.find_elements_by_class`: `value.split()` then
`soup.find_all(class_=classes)` over the whole document. -/
def find_elements_by_class (doc : List Element) (value : String) : List Element :=
  (forest_preorder doc).filter (fun el => class_list_match el.class_attr (py_split value))

/-- `ComponentScraper.find_component_by_class`. -/
def find_component_by_class (doc : List Element) (value : String) : Bool :=
  !(find_elements_by_class doc value).isEmpty

/-- `ComponentScraper.find_component_by_data_testid`: tries `data-testid`
first, then the alias `data-test-id`.  (Defined in the source but not
called from `check_component`.) -/
def find_component_by_data_testid (doc : List Element) (value : String) : Bool :=
  match (forest_preorder doc).find? (fun el => attr_match el "data-testid" value) with
  | some _ => true
  | none => ((forest_preorder doc).find? (fun el => attr_match el "data-test-id" value)).isSome

/-- `{strategy_name, text_pattern, optional container_class}` from the
configuration. -/
structure Strategy where
  strategy_name : String
  text_pattern : PyStr
  container_class : Option String
  deriving Repr, DecidableEq

/-- A component specification as `check_component` reads it: `name`,
`identifier_type`, `identifier_value`, and the optional
`carousel_strategies` / `text_strategies` keys. -/
structure ComponentSpec where
  name : String
  identifier_type : String
  identifier_value : String
  carousel_strategies : Option (List Strategy)
  text_strategies : Option (List Strategy)
  deriving Repr, DecidableEq

/-- `ComponentScraper._check_component_by_identifier_type`.  The `id`
branch calls `self.find_component_by_id`, a method `ComponentScraper`
never defines, so it raises `AttributeError` instead of returning. -/
def check_component_by_identifier_type (doc : List Element) (comp : ComponentSpec) :
    Except String (Bool × Option (List Element)) :=
  if comp.identifier_type = "data-testid" ∨ comp.identifier_type = "data-test-id" then
    match (forest_preorder doc).find?
        (fun el => attr_match el comp.identifier_type comp.identifier_value) with
    | some el => .ok (true, some [el])
    | none => .ok (false, none)
  else if comp.identifier_type = "class" then
    let els := find_elements_by_class doc comp.identifier_value
    if els.isEmpty then .ok (false, none) else .ok (true, some els)
  else if comp.identifier_type = "id" then
    .error "AttributeError: 'ComponentScraper' object has no attribute 'find_component_by_id'"
  else
    .ok (false, none)

/-! ## Strategy search (`find_strategies_in_elements`) -/

/-- `dict[k]` lookup on an association list with dict semantics. -/
def dict_get {α : Type} : List (String × α) → String → Option α
  | [], _ => none
  | (k', v) :: rest, k => if k' = k then some v else dict_get rest k

/-- `dict[k] = v`: replace in place when the key exists, append otherwise
(Python dicts keep a key's insertion position on update). -/
def dict_set {α : Type} : List (String × α) → String → α → List (String × α)
  | [], k, v => [(k, v)]
  | (k', v') :: rest, k, v =>
    if k' = k then (k', v) :: rest else (k', v') :: dict_set rest k v

/-- The value `find_strategies_in_elements` returns: the three dicts it
builds, keyed by strategy name.  `strategies_details` maps a name to the
`found_in` list of its `{'found_in': [...]}` entry. -/
structure StrategyOutcome where
  strategies_found : List (String × Bool)
  strategies_details : List (String × List String)
  potential_matches : List (String × List PyStr)
  deriving Repr, DecidableEq

/-- The three dict comprehensions initializing the search state. -/
def init_outcome (strategies : List Strategy) : StrategyOutcome :=
  { strategies_found := strategies.foldl (fun m s => dict_set m s.strategy_name false) []
    strategies_details := strategies.foldl (fun m s => dict_set m s.strategy_name []) []
    potential_matches := strategies.foldl (fun m s => dict_set m s.strategy_name []) [] }

/-- `el.get('id') or fallback`: Python `or` falls through on an absent or
empty (falsy) id attribute. -/
def label_with (fallback : String) (el : Element) (idx : Nat) : String :=
  match get_attr el "id" with
  | some s => if s = "" then fallback ++ toString (idx + 1) else s
  | none => fallback ++ toString (idx + 1)

def element_label (el : Element) (idx : Nat) : String := label_with "el-" el idx

/-- The scopes one strategy searches inside one element: the sub-elements
matching `container_class` when that key is present and truthy, else the
element itself. -/
def strategy_scope (el : Element) (strat : Strategy) : List Element :=
  match strat.container_class with
  | some cc =>
    if cc = "" then [el]
    else (descendants el).filter (fun d => class_str_match d.class_attr cc)
  | none => [el]

/-- The inner `for container_idx, container in enumerate(search_in)` loop
for one strategy: returns whether some scope text contains the normalized
pattern, and the scope texts appended to `potential_matches` — every
non-matching text scanned before the first match (all of them when none
matches); the loop `break`s at the match. -/
def scan_containers (pattern : PyStr) : List PyStr → Bool × List PyStr
  | [] => (false, [])
  | t :: ts =>
    if contains_seq (normalize_text pattern) (normalize_text t) then (true, [])
    else
      let r := scan_containers pattern ts
      (r.1, t :: r.2)

/-- The body of the `for strat in strategies` loop for one element: skip a
strategy already satisfied, otherwise scan its scopes, accumulate
diagnostic candidates, and on a match mark the strategy found and record
the element's label under `found_in`. -/
def strat_step (el : Element) (label : String) (st : StrategyOutcome) (strat : Strategy) :
    StrategyOutcome :=
  if (dict_get st.strategies_found strat.strategy_name).getD false then st
  else
    let texts := (strategy_scope el strat).map Element.stripped_text
    let r := scan_containers strat.text_pattern texts
    let pots := dict_set st.potential_matches strat.strategy_name
      ((dict_get st.potential_matches strat.strategy_name).getD [] ++ r.2)
    let st1 : StrategyOutcome := { st with potential_matches := pots }
    if r.1 then
      let sf := dict_set st1.strategies_found strat.strategy_name true
      let sd := dict_set st1.strategies_details strat.strategy_name
        ((dict_get st1.strategies_details strat.strategy_name).getD [] ++ [label])
      { st1 with strategies_found := sf, strategies_details := sd }
    else st1

/-- The outer `for idx, el in enumerate(elements)` loop. -/
def strategies_loop (strategies : List Strategy) : List Element → Nat → StrategyOutcome →
    StrategyOutcome
  | [], _, st => st
  | el :: rest, idx, st =>
    strategies_loop strategies rest (idx + 1)
      (strategies.foldl (strat_step el (element_label el idx)) st)

/-- `ComponentScraper.find_strategies_in_elements`. -/
def find_strategies_in_elements (elements : List Element) (strategies : List Strategy) :
    StrategyOutcome :=
  strategies_loop strategies elements 0 (init_outcome strategies)

/-! ## `check_component` -/

/-- What `_build_component_details` returns when it returns a dict: the
label list (under key `'carousels'` or `'elements'`, recorded in
`labels_key`) and the strategy outcome under `'strategies'`. -/
structure BuiltDetails where
  labels_key : String
  labels : List String
  strategies : StrategyOutcome
  deriving Repr, DecidableEq

/-- `ComponentScraper._build_component_details` (also covering the
`_extract_strategies` pass-through). -/
def build_component_details (comp : ComponentSpec) (elements : List Element) :
    Option BuiltDetails :=
  if elements.isEmpty then none
  else
    match comp.carousel_strategies with
    | some strats =>
      some { labels_key := "carousels"
             labels := elements.enum.map (fun p => label_with "carousel-" p.2 p.1)
             strategies := find_strategies_in_elements elements strats }
    | none =>
      match comp.text_strategies with
      | some strats =>
        some { labels_key := "elements"
               labels := elements.enum.map (fun p => label_with "el-" p.2 p.1)
               strategies := find_strategies_in_elements elements strats }
      | none => none

/-- The dict `check_component` returns. -/
structure MatchResult where
  name : String
  found : Bool
  details : Option BuiltDetails
  deriving Repr, DecidableEq

/-- `ComponentScraper.check_component`: dispatch on the identifier type,
then extract details for a found component.  (The not-found diagnostic
print has no observable effect on the result and is not modelled; the `id`
dispatch raises before reaching it.) -/
def check_component (doc : List Element) (comp : ComponentSpec) : Except String MatchResult :=
  match check_component_by_identifier_type doc comp with
  | .error e => .error e
  | .ok (found, els) =>
    .ok { name := comp.name
          found := found
          details := if found then build_component_details comp (els.getD []) else none }

/-! ## Claims about the normalizer (C8) -/

/-- Python type test `isinstance(v, str)`. -/
def is_py_str : PyVal → Bool
  | .pstr _ => true
  | _ => false

/-- C8 counterexample: the claim says `_normalize_text` is total and maps
non-string input to the empty canonical string; the code has no guard, so
`unicodedata.normalize('NFKD', None)` raises `TypeError` and in particular
does not return the empty string. -/
theorem C8_nonstring_counterexample :
    normalize_text_dyn PyVal.pnone =
      Except.error "TypeError: normalize() argument 2 must be str" ∧
    normalize_text_dyn PyVal.pnone ≠ Except.ok ([] : PyStr) :=
  ⟨rfl, fun h => nomatch h⟩

/-- C8 (amended): the normalizer is a pure total function on *string*
input — every string (the empty one included) yields a result and the
empty string yields the empty canonical string — while a non-string
argument raises `TypeError` instead of yielding the empty string:
it succeeds exactly on strings. -/
theorem C8_normalizer_total_on_strings :
    (∀ s : PyStr, normalize_text_dyn (PyVal.pstr s) = Except.ok (normalize_text s)) ∧
    normalize_text_dyn (PyVal.pstr []) = Except.ok ([] : PyStr) ∧
    (∀ v : PyVal, (normalize_text_dyn v).toOption.isSome = is_py_str v) := by
  refine ⟨fun s => rfl, rfl, fun v => ?_⟩
  cases v <;> rfl

/-! ## Claims about the identifier dispatch (C2, C3, C4) -/

theorem dispatch_class_eq (doc : List Element) (comp : ComponentSpec)
    (h : comp.identifier_type = "class") :
    check_component_by_identifier_type doc comp =
      (if (find_elements_by_class doc comp.identifier_value).isEmpty then
        Except.ok (false, none)
      else
        Except.ok (true, some (find_elements_by_class doc comp.identifier_value))) := by
  unfold check_component_by_identifier_type
  rw [h]
  rw [if_neg (by decide), if_pos rfl]

theorem dispatch_attr_eq (doc : List Element) (comp : ComponentSpec)
    (h : comp.identifier_type = "data-testid" ∨ comp.identifier_type = "data-test-id") :
    check_component_by_identifier_type doc comp =
      (match (forest_preorder doc).find?
          (fun el => attr_match el comp.identifier_type comp.identifier_value) with
      | some el => Except.ok (true, some [el])
      | none => Except.ok (false, none)) := by
  unfold check_component_by_identifier_type
  rw [if_pos h]

/-- An element's class set contains every token of the identifier value:
the matching rule the spec asserts for `identifier_type=class`. -/
def has_all_tokens (el : Element) (tokens : List String) : Bool :=
  tokens.all (fun t => (el.class_attr.getD []).contains t)

def c2_doc : List Element := [Element.mk [] (some ["a", "b"]) [] []]

def c2_comp : ComponentSpec :=
  { name := "Cross Sell", identifier_type := "class", identifier_value := "a c"
    carousel_strategies := none, text_strategies := none }

/-- C2 counterexample: on a document whose only element has classes
`{a, b}`, a class component with `identifier_value = "a c"` is reported
FOUND by `check_component`, although no element's class set contains all
the tokens — BeautifulSoup's list filter `find_all(class_=["a", "c"])`
matches on ANY shared token, so the claim's "only if ... ALL of the
tokens" fails, and so does its own example ("{a,b} does not match 'a c'"). -/
theorem C2_all_tokens_counterexample :
    check_component c2_doc c2_comp =
      Except.ok { name := "Cross Sell", found := true, details := none } ∧
    ((forest_preorder c2_doc).any fun el => has_all_tokens el (py_split "a c")) = false := by
  exact ⟨rfl, rfl⟩

/-- C2 (amended): for `identifier_type=class`, `check_component` never
raises and reports the component found iff some element of the document
matches BeautifulSoup's list-filter class rule for the space-split
`identifier_value` — the element has at least ONE class among the tokens,
or its space-joined class string equals a token.  Containing ALL tokens is
sufficient only in the single-token case; it is not what the code tests. -/
theorem C2_class_match_any_token (doc : List Element) (comp : ComponentSpec)
    (h : comp.identifier_type = "class") :
    ∃ r, check_component doc comp = Except.ok r ∧
      (r.found = true ↔ ∃ el ∈ forest_preorder doc,
        class_list_match el.class_attr (py_split comp.identifier_value) = true) := by
  unfold check_component
  rw [dispatch_class_eq doc comp h]
  by_cases he : (find_elements_by_class doc comp.identifier_value).isEmpty
  · rw [if_pos he]
    refine ⟨_, rfl, ?_⟩
    simp only [Bool.false_eq_true, false_iff]
    rintro ⟨el, hmem, hmatch⟩
    have : el ∈ find_elements_by_class doc comp.identifier_value :=
      List.mem_filter.2 ⟨hmem, hmatch⟩
    rw [List.isEmpty_iff] at he
    simp [he] at this
  · rw [if_neg he]
    refine ⟨_, rfl, ?_⟩
    simp only [true_iff]
    rw [List.isEmpty_iff] at he
    obtain ⟨el, hel⟩ := List.exists_mem_of_ne_nil _ he
    have := List.mem_filter.1 hel
    exact ⟨el, this.1, this.2⟩

theorem C2_class_match_witness :
    ∃ r, check_component c2_doc c2_comp = Except.ok r ∧
      (r.found = true ↔ ∃ el ∈ forest_preorder c2_doc,
        class_list_match el.class_attr (py_split c2_comp.identifier_value) = true) :=
  C2_class_match_any_token c2_doc c2_comp rfl

def c3_doc : List Element := [Element.mk [("data-test-id", "v")] none [] []]

def c3_comp : ComponentSpec :=
  { name := "Widget", identifier_type := "data-testid", identifier_value := "v"
    carousel_strategies := none, text_strategies := none }

/-- C3 counterexample: the specification names the alias `data-testid`, the
document's only element carries the other alias `data-test-id="v"`, and
`check_component` reports NOT found — `_check_component_by_identifier_type`
looks up only the attribute literally named by `identifier_type`, so the
two aliases are not equivalent markers on this path (the helper
`find_component_by_data_testid`, which does try both, is never called by
`check_component`). -/
theorem C3_alias_equivalence_counterexample :
    check_component c3_doc c3_comp =
      Except.ok { name := "Widget", found := false, details := none } ∧
    ((forest_preorder c3_doc).any fun el =>
      attr_match el "data-testid" "v" || attr_match el "data-test-id" "v") = true ∧
    find_component_by_data_testid c3_doc "v" = true := by
  exact ⟨rfl, rfl, rfl⟩

/-- C3 (amended): for an attribute-identified component
(`identifier_type` ∈ {`data-testid`, `data-test-id`}), `check_component`
never raises and reports the component found iff some element carries
EXACTLY the alias attribute the specification names, with value
`identifier_value`; the other alias is not consulted. -/
theorem C3_attr_exact_alias_only (doc : List Element) (comp : ComponentSpec)
    (h : comp.identifier_type = "data-testid" ∨ comp.identifier_type = "data-test-id") :
    ∃ r, check_component doc comp = Except.ok r ∧
      (r.found = true ↔ ∃ el ∈ forest_preorder doc,
        attr_match el comp.identifier_type comp.identifier_value = true) := by
  unfold check_component
  rw [dispatch_attr_eq doc comp h]
  rcases hf : (forest_preorder doc).find?
      (fun el => attr_match el comp.identifier_type comp.identifier_value) with _ | el
  · refine ⟨_, rfl, ?_⟩
    simp only [Bool.false_eq_true, false_iff]
    rintro ⟨el, hmem, hmatch⟩
    have := List.find?_eq_none.1 hf el hmem
    simp [hmatch] at this
  · refine ⟨_, rfl, ?_⟩
    simp only [true_iff]
    exact ⟨el, List.mem_of_find?_eq_some hf, by simpa using List.find?_some hf⟩

theorem C3_attr_witness :
    ∃ r, check_component c3_doc c3_comp = Except.ok r ∧
      (r.found = true ↔ ∃ el ∈ forest_preorder c3_doc,
        attr_match el c3_comp.identifier_type c3_comp.identifier_value = true) :=
  C3_attr_exact_alias_only c3_doc c3_comp (Or.inl rfl)

/-- C4: the claim describes the intended behaviour of the `id` dispatch
(found iff an element has that id, `details=None` plus a diagnostic log
when absent, never raising).  The code cannot deliver it: the branch calls
`self.find_component_by_id`, a method `ComponentScraper` never defines, so
for EVERY document and every component specification with
`identifier_type='id'` the call raises `AttributeError` instead of
returning a result. -/
theorem C4_id_dispatch_raises (doc : List Element) (comp : ComponentSpec)
    (h : comp.identifier_type = "id") :
    check_component doc comp =
      Except.error
        "AttributeError: 'ComponentScraper' object has no attribute 'find_component_by_id'" := by
  unfold check_component check_component_by_identifier_type
  rw [h]
  rw [if_neg (by decide), if_neg (by decide), if_pos rfl]

def c4_comp : ComponentSpec :=
  { name := "Hero Banner", identifier_type := "id", identifier_value := "main"
    carousel_strategies := none, text_strategies := none }

theorem C4_id_dispatch_witness :
    check_component [Element.mk [("id", "main")] none [] []] c4_comp =
      Except.error
        "AttributeError: 'ComponentScraper' object has no attribute 'find_component_by_id'" :=
  C4_id_dispatch_raises [Element.mk [("id", "main")] none [] []] c4_comp rfl

/-! ## First-satisfying-element discipline of the strategy search (C5) -/

theorem dict_get_set_self {α : Type} (m : List (String × α)) (k : String) (v : α) :
    dict_get (dict_set m k v) k = some v := by
  induction m with
  | nil => simp [dict_set, dict_get]
  | cons p rest ih =>
    by_cases h : p.1 = k
    · simp [dict_set, dict_get, h]
    · simp [dict_set, dict_get, h, ih]

theorem dict_get_set_ne {α : Type} (m : List (String × α)) (k k' : String) (v : α)
    (h : k ≠ k') : dict_get (dict_set m k v) k' = dict_get m k' := by
  induction m with
  | nil => simp [dict_set, dict_get, h]
  | cons p rest ih =>
    by_cases hp : p.1 = k
    · simp [dict_set, dict_get, hp, h]
    · by_cases hp' : p.1 = k'
      · simp [dict_set, dict_get, hp, hp', Ne.symm h]
      · simp [dict_set, dict_get, hp, hp', ih]

theorem dict_get_foldl_set {α : Type} (v : α) :
    ∀ (l : List Strategy) (m : List (String × α)) (n : String),
      (dict_get m n = some v ∨ n ∈ l.map Strategy.strategy_name) →
      dict_get (l.foldl (fun m s => dict_set m s.strategy_name v) m) n = some v
  | [], m, n, h => by
    simpa using h.resolve_right (by simp)
  | s :: l', m, n, h => by
    simp only [List.foldl_cons]
    by_cases hn : s.strategy_name = n
    · exact dict_get_foldl_set v l' _ n (Or.inl (hn ▸ dict_get_set_self m s.strategy_name v))
    · refine dict_get_foldl_set v l' _ n ?_
      rcases h with h | h
      · exact Or.inl ((dict_get_set_ne m s.strategy_name n v hn).trans h)
      · rcases List.mem_map.1 h with ⟨s', hs', hname⟩
        rcases List.mem_cons.1 hs' with rfl | hs'
        · exact absurd hname hn
        · exact Or.inr (List.mem_map.2 ⟨s', hs', hname⟩)

theorem init_outcome_found (strategies : List Strategy) (n : String)
    (h : n ∈ strategies.map Strategy.strategy_name) :
    dict_get (init_outcome strategies).strategies_found n = some false :=
  dict_get_foldl_set false strategies [] n (Or.inr h)

theorem init_outcome_details (strategies : List Strategy) (n : String)
    (h : n ∈ strategies.map Strategy.strategy_name) :
    dict_get (init_outcome strategies).strategies_details n = some [] :=
  dict_get_foldl_set [] strategies [] n (Or.inr h)

/-- The pattern of `strat` occurs (normalized, as a substring) in the text
of some search scope of `el` — the condition under which the inner
container loop succeeds for this element. -/
def strategy_satisfied_by (strat : Strategy) (el : Element) : Bool :=
  ((strategy_scope el strat).map Element.stripped_text).any
    (fun t => contains_seq (normalize_text strat.text_pattern) (normalize_text t))

theorem scan_containers_fst (pat : PyStr) (texts : List PyStr) :
    (scan_containers pat texts).1 =
      texts.any (fun t => contains_seq (normalize_text pat) (normalize_text t)) := by
  induction texts with
  | nil => rfl
  | cons t ts ih =>
    by_cases h : contains_seq (normalize_text pat) (normalize_text t)
    · simp [scan_containers, h]
    · simp [scan_containers, h, ih]

/-- The element labels the outer loop assigns, starting at enumeration
index `idx`. -/
def labeled_from (idx : Nat) : List Element → List (String × Element)
  | [] => []
  | el :: rest => (element_label el idx, el) :: labeled_from (idx + 1) rest

theorem strat_step_found_ne (el : Element) (lbl : String) (st : StrategyOutcome)
    (s : Strategy) (n : String) (h : s.strategy_name ≠ n) :
    dict_get (strat_step el lbl st s).strategies_found n = dict_get st.strategies_found n := by
  unfold strat_step
  by_cases hskip : (dict_get st.strategies_found s.strategy_name).getD false
  · simp [hskip]
  · by_cases hfst : (scan_containers s.text_pattern
        ((strategy_scope el s).map Element.stripped_text)).1
    · simp [hskip, hfst, dict_get_set_ne _ _ _ _ h]
    · simp [hskip, hfst]

theorem strat_step_details_ne (el : Element) (lbl : String) (st : StrategyOutcome)
    (s : Strategy) (n : String) (h : s.strategy_name ≠ n) :
    dict_get (strat_step el lbl st s).strategies_details n =
      dict_get st.strategies_details n := by
  unfold strat_step
  by_cases hskip : (dict_get st.strategies_found s.strategy_name).getD false
  · simp [hskip]
  · by_cases hfst : (scan_containers s.text_pattern
        ((strategy_scope el s).map Element.stripped_text)).1
    · simp [hskip, hfst, dict_get_set_ne _ _ _ _ h]
    · simp [hskip, hfst]

theorem strat_step_skip (el : Element) (lbl : String) (st : StrategyOutcome)
    (s : Strategy) (h : dict_get st.strategies_found s.strategy_name = some true) :
    strat_step el lbl st s = st := by
  simp [strat_step, h]

theorem strat_step_self_sat (el : Element) (lbl : String) (st : StrategyOutcome)
    (s : Strategy) (fi : List String)
    (hf : dict_get st.strategies_found s.strategy_name = some false)
    (hd : dict_get st.strategies_details s.strategy_name = some fi)
    (hsat : strategy_satisfied_by s el = true) :
    dict_get (strat_step el lbl st s).strategies_found s.strategy_name = some true ∧
    dict_get (strat_step el lbl st s).strategies_details s.strategy_name =
      some (fi ++ [lbl]) := by
  have hfst : (scan_containers s.text_pattern
      ((strategy_scope el s).map Element.stripped_text)).1 = true := by
    rw [scan_containers_fst]; exact hsat
  constructor
  · simp [strat_step, hf, hfst, dict_get_set_self]
  · simp [strat_step, hf, hfst, hd, dict_get_set_self]

theorem strat_step_self_unsat (el : Element) (lbl : String) (st : StrategyOutcome)
    (s : Strategy)
    (hf : dict_get st.strategies_found s.strategy_name = some false)
    (hsat : strategy_satisfied_by s el = false) :
    dict_get (strat_step el lbl st s).strategies_found s.strategy_name = some false ∧
    dict_get (strat_step el lbl st s).strategies_details s.strategy_name =
      dict_get st.strategies_details s.strategy_name := by
  have hfst : (scan_containers s.text_pattern
      ((strategy_scope el s).map Element.stripped_text)).1 = false := by
    rw [scan_containers_fst]; exact hsat
  constructor
  · simp [strat_step, hf, hfst]
  · simp [strat_step, hf, hfst]

theorem fold_preserve_found_true (el : Element) (lbl : String) :
    ∀ (l : List Strategy) (st : StrategyOutcome) (n : String),
      dict_get st.strategies_found n = some true →
      dict_get (l.foldl (strat_step el lbl) st).strategies_found n = some true ∧
      dict_get (l.foldl (strat_step el lbl) st).strategies_details n =
        dict_get st.strategies_details n
  | [], st, n, h => ⟨h, rfl⟩
  | s :: l', st, n, h => by
    simp only [List.foldl_cons]
    by_cases hs : s.strategy_name = n
    · rw [strat_step_skip el lbl st s (by rw [hs]; exact h)]
      exact fold_preserve_found_true el lbl l' st n h
    · have h1 := strat_step_found_ne el lbl st s n hs
      have h2 := strat_step_details_ne el lbl st s n hs
      obtain ⟨ha, hb⟩ :=
        fold_preserve_found_true el lbl l' (strat_step el lbl st s) n (h1.trans h)
      exact ⟨ha, hb.trans h2⟩

theorem fold_preserve_ne (el : Element) (lbl : String) :
    ∀ (l : List Strategy) (st : StrategyOutcome) (n : String),
      (∀ s ∈ l, s.strategy_name ≠ n) →
      dict_get (l.foldl (strat_step el lbl) st).strategies_found n =
        dict_get st.strategies_found n ∧
      dict_get (l.foldl (strat_step el lbl) st).strategies_details n =
        dict_get st.strategies_details n
  | [], _, _, _ => ⟨rfl, rfl⟩
  | s :: l', st, n, h => by
    simp only [List.foldl_cons]
    have hs : s.strategy_name ≠ n := h s (by simp)
    obtain ⟨ha, hb⟩ := fold_preserve_ne el lbl l' (strat_step el lbl st s) n
      (fun t ht => h t (by simp [ht]))
    exact ⟨ha.trans (strat_step_found_ne el lbl st s n hs),
           hb.trans (strat_step_details_ne el lbl st s n hs)⟩

theorem fold_elem_char (el : Element) (lbl : String) (s : Strategy) :
    ∀ (l : List Strategy) (st : StrategyOutcome) (fi : List String),
      s ∈ l → (l.map Strategy.strategy_name).Nodup →
      dict_get st.strategies_found s.strategy_name = some false →
      dict_get st.strategies_details s.strategy_name = some fi →
      dict_get (l.foldl (strat_step el lbl) st).strategies_found s.strategy_name
        = some (strategy_satisfied_by s el) ∧
      dict_get (l.foldl (strat_step el lbl) st).strategies_details s.strategy_name
        = some (if strategy_satisfied_by s el then fi ++ [lbl] else fi)
  | [], _, _, hmem, _, _, _ => absurd hmem (by simp)
  | s' :: l', st, fi, hmem, hnodup, hf, hd => by
    simp only [List.foldl_cons]
    by_cases hname : s'.strategy_name = s.strategy_name
    · have hs' : s' = s := by
        rcases List.mem_cons.1 hmem with rfl | hmem'
        · rfl
        · exfalso
          have hhead : s'.strategy_name ∉ l'.map Strategy.strategy_name := by
            have := hnodup
            simp only [List.map_cons, List.nodup_cons] at this
            exact this.1
          exact hhead (hname ▸ List.mem_map.2 ⟨s, hmem', rfl⟩)
      subst hs'
      by_cases hsat : strategy_satisfied_by s' el = true
      · obtain ⟨hF, hD⟩ := strat_step_self_sat el lbl st s' fi hf hd hsat
        obtain ⟨h3, h4⟩ := fold_preserve_found_true el lbl l' _ s'.strategy_name hF
        rw [hsat]
        exact ⟨h3, by rw [h4, hD]; simp⟩
      · have hsat' : strategy_satisfied_by s' el = false := by
          simpa using hsat
        obtain ⟨hF, hD⟩ := strat_step_self_unsat el lbl st s' hf hsat'
        have hrest : ∀ t ∈ l', t.strategy_name ≠ s'.strategy_name := by
          intro t ht
          have hhead : s'.strategy_name ∉ l'.map Strategy.strategy_name := by
            have := hnodup
            simp only [List.map_cons, List.nodup_cons] at this
            exact this.1
          intro hc
          exact hhead (hc ▸ List.mem_map.2 ⟨t, ht, rfl⟩)
        obtain ⟨h3, h4⟩ := fold_preserve_ne el lbl l' _ s'.strategy_name hrest
        rw [hsat']
        exact ⟨h3.trans hF, by rw [h4, hD.trans hd]; simp⟩
    · have hmem' : s ∈ l' := by
        rcases List.mem_cons.1 hmem with rfl | hmem'
        · exact absurd rfl hname
        · exact hmem'
      have hnodup' : (l'.map Strategy.strategy_name).Nodup := by
        have := hnodup
        simp only [List.map_cons, List.nodup_cons] at this
        exact this.2
      have h1 := strat_step_found_ne el lbl st s' s.strategy_name hname
      have h2 := strat_step_details_ne el lbl st s' s.strategy_name hname
      exact fold_elem_char el lbl s l' (strat_step el lbl st s') fi hmem' hnodup'
        (h1.trans hf) (h2.trans hd)

theorem loop_preserve_true (strategies : List Strategy) :
    ∀ (elems : List Element) (idx : Nat) (st : StrategyOutcome) (n : String),
      dict_get st.strategies_found n = some true →
      dict_get (strategies_loop strategies elems idx st).strategies_found n = some true ∧
      dict_get (strategies_loop strategies elems idx st).strategies_details n =
        dict_get st.strategies_details n
  | [], _, st, n, h => ⟨h, rfl⟩
  | el :: rest, idx, st, n, h => by
    simp only [strategies_loop]
    obtain ⟨h1, h2⟩ := fold_preserve_found_true el (element_label el idx) strategies st n h
    obtain ⟨h3, h4⟩ := loop_preserve_true strategies rest (idx + 1) _ n h1
    exact ⟨h3, h4.trans h2⟩

theorem loop_char (strategies : List Strategy) (s : Strategy)
    (hmem : s ∈ strategies) (hnodup : (strategies.map Strategy.strategy_name).Nodup) :
    ∀ (elems : List Element) (idx : Nat) (st : StrategyOutcome) (fi : List String),
      dict_get st.strategies_found s.strategy_name = some false →
      dict_get st.strategies_details s.strategy_name = some fi →
      dict_get (strategies_loop strategies elems idx st).strategies_found s.strategy_name
        = some ((labeled_from idx elems).any fun p => strategy_satisfied_by s p.2) ∧
      dict_get (strategies_loop strategies elems idx st).strategies_details s.strategy_name
        = some (match (labeled_from idx elems).find? (fun p => strategy_satisfied_by s p.2) with
                | some p => fi ++ [p.1]
                | none => fi)
  | [], idx, st, fi, hf, hd => by
    simpa [strategies_loop, labeled_from] using ⟨hf, hd⟩
  | el :: rest, idx, st, fi, hf, hd => by
    simp only [strategies_loop, labeled_from]
    by_cases hsat : strategy_satisfied_by s el = true
    · obtain ⟨hF, hD⟩ := fold_elem_char el (element_label el idx) s strategies st fi
        hmem hnodup hf hd
      rw [hsat] at hF
      rw [if_pos hsat] at hD
      obtain ⟨h3, h4⟩ := loop_preserve_true strategies rest (idx + 1) _ s.strategy_name hF
      constructor
      · rw [h3, List.any_cons]
        simp [hsat]
      · rw [h4, hD, List.find?_cons_of_pos _ (by simpa using hsat)]
    · have hsat' : strategy_satisfied_by s el = false := by simpa using hsat
      obtain ⟨hF, hD⟩ := fold_elem_char el (element_label el idx) s strategies st fi
        hmem hnodup hf hd
      rw [hsat'] at hF
      rw [if_neg (by simp [hsat'])] at hD
      obtain ⟨h3, h4⟩ :=
        loop_char strategies s hmem hnodup rest (idx + 1) _ fi hF hD
      constructor
      · rw [h3, List.any_cons]
        simp [hsat']
      · rw [h4, List.find?_cons_of_neg _ (by simpa using hsat)]

/-- For a strategy of the list (strategy names distinct): its final
`strategies_found` flag is "some element satisfies it", and its `found_in`
list holds exactly the label of the FIRST satisfying element when one
exists, and nothing otherwise. -/
theorem find_strategies_char (elements : List Element) (strategies : List Strategy)
    (s : Strategy) (hmem : s ∈ strategies)
    (hnodup : (strategies.map Strategy.strategy_name).Nodup) :
    dict_get (find_strategies_in_elements elements strategies).strategies_found
        s.strategy_name
      = some ((labeled_from 0 elements).any fun p => strategy_satisfied_by s p.2) ∧
    dict_get (find_strategies_in_elements elements strategies).strategies_details
        s.strategy_name
      = some (match (labeled_from 0 elements).find?
                (fun p => strategy_satisfied_by s p.2) with
              | some p => [p.1]
              | none => []) := by
  have hn : s.strategy_name ∈ strategies.map Strategy.strategy_name :=
    List.mem_map.2 ⟨s, hmem, rfl⟩
  have h := loop_char strategies s hmem hnodup elements 0 (init_outcome strategies) []
    (init_outcome_found strategies s.strategy_name hn)
    (init_outcome_details strategies s.strategy_name hn)
  unfold find_strategies_in_elements
  rcases hfind : (labeled_from 0 elements).find? (fun p => strategy_satisfied_by s p.2)
    with _ | p
  · rw [hfind] at h
    rw [hfind]
    simpa using h
  · rw [hfind] at h
    rw [hfind]
    simpa using h

theorem list_find?_eq_filter_head? {α : Type} (p : α → Bool) :
    ∀ l : List α, l.find? p = (l.filter p).head?
  | [] => rfl
  | a :: l' => by
    by_cases h : p a
    · rw [List.find?_cons_of_pos _ h, List.filter_cons_of_pos h]
      rfl
    · rw [List.find?_cons_of_neg _ (by simpa using h),
        List.filter_cons_of_neg (by simpa using h)]
      exact list_find?_eq_filter_head? p l'

/-- C5: the strategy search takes the first satisfying element and stops
scanning further elements for that strategy.  For every element list and
strategy list (strategy names distinct, as dict keys are) and every
strategy of the list whose pattern occurs — under its container scoping —
in exactly one element, the strategy is marked found and its `found_in`
holds exactly that one element's label, never a later element's. -/
theorem C5_first_element_wins (elements : List Element) (strategies : List Strategy)
    (s : Strategy) (lbl : String) (e : Element) (hmem : s ∈ strategies)
    (hnodup : (strategies.map Strategy.strategy_name).Nodup)
    (hone : (labeled_from 0 elements).filter (fun p => strategy_satisfied_by s p.2)
      = [(lbl, e)]) :
    dict_get (find_strategies_in_elements elements strategies).strategies_found
        s.strategy_name = some true ∧
    dict_get (find_strategies_in_elements elements strategies).strategies_details
        s.strategy_name = some [lbl] := by
  obtain ⟨h1, h2⟩ := find_strategies_char elements strategies s hmem hnodup
  have hpair : (lbl, e) ∈
      (labeled_from 0 elements).filter (fun p => strategy_satisfied_by s p.2) := by
    rw [hone]; simp
  have hpm := List.mem_filter.1 hpair
  constructor
  · rw [h1]
    have : ((labeled_from 0 elements).any fun p => strategy_satisfied_by s p.2) = true :=
      List.any_eq_true.2 ⟨(lbl, e), hpm.1, hpm.2⟩
    rw [this]
  · rw [h2, list_find?_eq_filter_head?, hone]
    rfl

def c5_strat : Strategy :=
  { strategy_name := "Strategy 1", text_pattern := [104, 105], container_class := none }

def c5_e1 : Element := Element.mk [] none [120, 121] []

def c5_e2 : Element := Element.mk [] none [104, 105, 33] []

theorem C5_first_element_wins_witness :
    dict_get (find_strategies_in_elements [c5_e1, c5_e2] [c5_strat]).strategies_found
        "Strategy 1" = some true ∧
    dict_get (find_strategies_in_elements [c5_e1, c5_e2] [c5_strat]).strategies_details
        "Strategy 1" = some ["el-2"] :=
  C5_first_element_wins [c5_e1, c5_e2] [c5_strat] c5_strat "el-2" c5_e2
    (by simp) (by simp) rfl

/-! ## Teams digest issue extraction (C1, C10)

Two implementations of `extract_components_issues` exist in the repository:
the dedup-naive one in `services/teams_service.py` and the dedup-aware one
in `src/services/teams_service.py`.  Both read JSON-shaped `TargetResult`
records; the record types below model exactly the keys they touch, with
`Option` marking a key's presence.  `DigestDetails.strategies` is
`Option (Option _)`: the outer layer is presence of the `'strategies'` key,
the inner layer is whether its value is `null`.  `has_other_keys` records
whether the details dict holds further keys (`'elements'`/`'carousels'`),
which only matters for Python dict truthiness in the naive version. -/

structure StrategiesObj where
  strategies_found : List (String × Bool)
  deriving Repr, DecidableEq

structure DigestDetails where
  strategies : Option (Option StrategiesObj)
  has_other_keys : Bool
  deriving Repr, DecidableEq

structure DigestComponent where
  name : Option String
  found : Option Bool
  details : Option DigestDetails
  deriving Repr, DecidableEq

structure DigestPage where
  page_type : Option String
  components : List DigestComponent
  deriving Repr, DecidableEq

structure DigestResult where
  pages : List DigestPage
  deriving Repr, DecidableEq

/-- The mapping both extractors build: issue label → set of page types
(a Python `set`, modelled as a duplicate-free insertion-ordered list). -/
abbrev IssueMap := List (String × List String)

/-- `set.add`. -/
def set_add (s : List String) (x : String) : List String :=
  if s.contains x then s else s ++ [x]

/-- `if name not in components_issues: components_issues[name] = set()`
followed by `components_issues[name].add(page_type)`. -/
def add_issue (m : IssueMap) (label page : String) : IssueMap :=
  match dict_get m label with
  | some s => dict_set m label (set_add s page)
  | none => m ++ [(label, [page])]

/-- `has_strategies` of the dedup-aware version: details is a dict that
holds a non-null `'strategies'` value.  (The Python conjunct `details and
isinstance(details, dict)` is implied: a dict with a `'strategies'` key is
non-empty, hence truthy.) -/
def has_strategies (c : DigestComponent) : Bool :=
  match c.details with
  | some d =>
    match d.strategies with
    | some (some _) => true
    | _ => false
  | none => false

/-- `details.get('strategies', {}).get('strategies_found', {})` when the
strategies object is present and non-null, else the empty dict. -/
def details_strategies_found (c : DigestComponent) : List (String × Bool) :=
  match c.details with
  | some d =>
    match d.strategies with
    | some (some so) => so.strategies_found
    | _ => []
  | none => []

/-- The per-component body of the dedup-aware
`extract_components_issues` (`src/services/teams_service.py`): a component
with strategies contributes only its failing strategy names; otherwise an
unfound component contributes its own name (default `'Unknown'`). -/
def aware_component (pt : String) (m : IssueMap) (c : DigestComponent) : IssueMap :=
  if has_strategies c then
    (details_strategies_found c).foldl
      (fun m q => if q.2 then m else add_issue m q.1 pt) m
  else if (c.found.getD false) = false then
    add_issue m (c.name.getD "Unknown") pt
  else m

def aware_page (m : IssueMap) (pg : DigestPage) : IssueMap :=
  pg.components.foldl (aware_component (pg.page_type.getD "N/A")) m

/-- The dedup-aware `extract_components_issues` of
`src/services/teams_service.py`. -/
def extract_components_issues (tr : DigestResult) : IssueMap :=
  tr.pages.foldl aware_page []

/-- The per-component body of the dedup-naive `extract_components_issues`
(`services/teams_service.py`): an unfound component contributes its own
name (default `'N/A'`) and, independently, any truthy details dict has its
failing strategies added; a `'strategies'` key holding `None` makes
`strategies.get('strategies_found', {})` raise `AttributeError`. -/
def naive_component (pt : String) (m : IssueMap) (c : DigestComponent) :
    Except String IssueMap :=
  let m1 := if (c.found.getD true) = false then add_issue m (c.name.getD "N/A") pt else m
  match c.details with
  | some d =>
    if d.strategies.isSome || d.has_other_keys then
      match d.strategies with
      | some none => .error "AttributeError: 'NoneType' object has no attribute 'get'"
      | some (some so) =>
        .ok (so.strategies_found.foldl
          (fun m q => if q.2 then m else add_issue m q.1 pt) m1)
      | none => .ok m1
    else .ok m1
  | none => .ok m1

def naive_components (pt : String) : IssueMap → List DigestComponent → Except String IssueMap
  | m, [] => .ok m
  | m, c :: cs =>
    match naive_component pt m c with
    | .error e => .error e
    | .ok m' => naive_components pt m' cs

def naive_pages : IssueMap → List DigestPage → Except String IssueMap
  | m, [] => .ok m
  | m, pg :: pgs =>
    match naive_components (pg.page_type.getD "N/A") m pg.components with
    | .error e => .error e
    | .ok m' => naive_pages m' pgs

/-- The dedup-naive `extract_components_issues` of
`services/teams_service.py`. -/
def extract_components_issues_naive (tr : DigestResult) : Except String IssueMap :=
  naive_pages [] tr.pages

/-- The page-type set recorded for a label (empty when the label is no
key of the mapping). -/
def issue_pages (m : IssueMap) (label : String) : List String :=
  (dict_get m label).getD []

/-- What the dedup invariant says one component contributes under a label:
a failing strategy name when the component carries a strategies object,
else its own name when it was not found. -/
def component_contributes (c : DigestComponent) (label : String) : Bool :=
  if has_strategies c then
    (details_strategies_found c).any (fun q => q.1 == label && !q.2)
  else
    !(c.found.getD false) && (c.name.getD "Unknown" == label)

theorem mem_set_add (s : List String) (x y : String) :
    y ∈ set_add s x ↔ y = x ∨ y ∈ s := by
  unfold set_add
  by_cases h : s.contains x
  · simp only [h, if_pos]
    constructor
    · exact Or.inr
    · rintro (rfl | hy)
      · simpa using h
      · exact hy
  · rw [if_neg h]
    simp [or_comm]

theorem dict_get_append {α : Type} :
    ∀ (m m' : List (String × α)) (k : String),
      dict_get (m ++ m') k =
        match dict_get m k with
        | some v => some v
        | none => dict_get m' k
  | [], m', k => rfl
  | p :: rest, m', k => by
    by_cases h : p.1 = k
    · simp [dict_get, h]
    · simpa [dict_get, h] using dict_get_append rest m' k

theorem mem_issue_pages_add (m : IssueMap) (l p l' p' : String) :
    p' ∈ issue_pages (add_issue m l p) l' ↔ (l' = l ∧ p' = p) ∨ p' ∈ issue_pages m l' := by
  unfold add_issue
  rcases hg : dict_get m l with _ | s
  · rcases hl : decide (l' = l) with _ | _
    · have hl' : l' ≠ l := by simpa using hl
      unfold issue_pages
      rw [dict_get_append]
      rcases hg' : dict_get m l' with _ | s'
      · simp [dict_get, hg', hl', Ne.symm hl']
      · simp [hg', hl']
    · have hl' : l' = l := by simpa using hl
      subst hl'
      unfold issue_pages
      rw [dict_get_append, hg]
      simp [dict_get]
  · rcases hl : decide (l' = l) with _ | _
    · have hl' : l' ≠ l := by simpa using hl
      unfold issue_pages
      rw [dict_get_set_ne m l l' _ (fun hc => hl' hc.symm)]
      simp [hl']
    · have hl' : l' = l := by simpa using hl
      subst hl'
      unfold issue_pages
      rw [dict_get_set_self, hg]
      simp [mem_set_add]

theorem mem_fold_strats (pt : String) :
    ∀ (sf : List (String × Bool)) (m : IssueMap) (l p : String),
      (p ∈ issue_pages
        (sf.foldl (fun m q => if q.2 then m else add_issue m q.1 pt) m) l) ↔
      (p = pt ∧ (sf.any fun q => q.1 == l && !q.2) = true) ∨ p ∈ issue_pages m l
  | [], m, l, p => by simp
  | q :: sf', m, l, p => by
    simp only [List.foldl_cons, List.any_cons]
    by_cases hq : q.2
    · rw [if_pos hq, mem_fold_strats pt sf' m l p]
      simp [hq]
    · rw [if_neg hq, mem_fold_strats pt sf' (add_issue m q.1 pt) l p,
        mem_issue_pages_add]
      have hq' : q.2 = false := by simpa using hq
      by_cases hl : q.1 = l
      · subst hl
        simp [hq']
        tauto
      · simp only [hq', Bool.not_false, Bool.and_true]
        simp [hl, Ne.symm hl]

theorem mem_aware_component (pt : String) (m : IssueMap) (c : DigestComponent)
    (l p : String) :
    p ∈ issue_pages (aware_component pt m c) l ↔
      (p = pt ∧ component_contributes c l = true) ∨ p ∈ issue_pages m l := by
  unfold aware_component component_contributes
  by_cases hs : has_strategies c
  · rw [if_pos hs, if_pos hs, mem_fold_strats]
  · rw [if_neg hs, if_neg hs]
    by_cases hf : (c.found.getD false) = false
    · rw [if_pos hf, mem_issue_pages_add]
      simp only [hf, Bool.not_false, Bool.true_and]
      by_cases hl : c.name.getD "Unknown" = l
      · simp [hl]
      · simp [hl, Ne.symm hl]
    · rw [if_neg hf]
      have : c.found.getD false = true := by simpa using hf
      simp [this]

theorem mem_fold_components (pt : String) :
    ∀ (cs : List DigestComponent) (m : IssueMap) (l p : String),
      p ∈ issue_pages (cs.foldl (aware_component pt) m) l ↔
        (p = pt ∧ ∃ c ∈ cs, component_contributes c l = true) ∨ p ∈ issue_pages m l
  | [], m, l, p => by simp
  | c :: cs', m, l, p => by
    simp only [List.foldl_cons]
    rw [mem_fold_components pt cs' (aware_component pt m c) l p, mem_aware_component]
    simp only [List.mem_cons]
    constructor
    · rintro (⟨rfl, c', hc', hcon⟩ | (⟨rfl, hcon⟩ | hm))
      · exact Or.inl ⟨rfl, c', Or.inr hc', hcon⟩
      · exact Or.inl ⟨rfl, c, Or.inl rfl, hcon⟩
      · exact Or.inr hm
    · rintro (⟨rfl, c', (rfl | hc'), hcon⟩ | hm)
      · exact Or.inr (Or.inl ⟨rfl, hcon⟩)
      · exact Or.inl ⟨rfl, c', hc', hcon⟩
      · exact Or.inr (Or.inr hm)

theorem mem_fold_pages :
    ∀ (pgs : List DigestPage) (m : IssueMap) (l p : String),
      p ∈ issue_pages (pgs.foldl aware_page m) l ↔
        (∃ pg ∈ pgs, pg.page_type.getD "N/A" = p ∧
          ∃ c ∈ pg.components, component_contributes c l = true) ∨ p ∈ issue_pages m l
  | [], m, l, p => by simp
  | pg :: pgs', m, l, p => by
    simp only [List.foldl_cons]
    rw [mem_fold_pages pgs' (aware_page m pg) l p]
    unfold aware_page
    rw [mem_fold_components]
    simp only [List.mem_cons]
    constructor
    · rintro (⟨pg', hpg', hpt, hc⟩ | (⟨rfl, hc⟩ | hm))
      · exact Or.inl ⟨pg', Or.inr hpg', hpt, hc⟩
      · exact Or.inl ⟨pg, Or.inl rfl, rfl, hc⟩
      · exact Or.inr hm
    · rintro (⟨pg', (rfl | hpg'), hpt, hc⟩ | hm)
      · exact Or.inr (Or.inl ⟨hpt.symm, hc⟩)
      · exact Or.inl ⟨pg', hpg', hpt, hc⟩
      · exact Or.inr (Or.inr hm)

/-- C1: the dedup invariant of the dedup-aware issue extraction
(`src/services/teams_service.py`).  A page type is recorded under an issue
label exactly when some page of that type holds a component that
contributes the label, where a component whose details carry a non-null
strategies object contributes exactly its FAILING strategy names (never
its own name, even when only some strategies failed and regardless of its
own `found` flag), and a component without such an object contributes its
own name exactly when it was not found. -/
theorem C1_digest_dedup_extraction (tr : DigestResult) (label pt : String) :
    pt ∈ issue_pages (extract_components_issues tr) label ↔
      ∃ pg ∈ tr.pages, pg.page_type.getD "N/A" = pt ∧
        ∃ c ∈ pg.components, component_contributes c label = true := by
  unfold extract_components_issues
  rw [mem_fold_pages]
  simp [issue_pages, dict_get]

/-- The reachable-shape hypothesis exactly as the claim states it: the
component record has a `'found'` key, and its details field is a dict
containing a (non-null) `'strategies'` dict only when found is true and is
`None` otherwise. -/
def reachable_component_literal (c : DigestComponent) : Bool :=
  match c.found with
  | none => false
  | some b =>
    match c.details with
    | none => true
    | some d =>
      b && (match d.strategies with
            | some (some _) => true
            | _ => false)

def reachable_result_literal (tr : DigestResult) : Bool :=
  tr.pages.all (fun pg => pg.components.all reachable_component_literal)

/-- The shape `check_component` actually produces also carries a `'name'`
key; the amended hypothesis adds that. -/
def reachable_component (c : DigestComponent) : Bool :=
  c.name.isSome && reachable_component_literal c

def reachable_result (tr : DigestResult) : Bool :=
  tr.pages.all (fun pg => pg.components.all reachable_component)

def c10_tr : DigestResult :=
  { pages := [{ page_type := some "PDP"
                components := [{ name := none, found := some false, details := none }] }] }

/-- C10 counterexample: a TargetResult satisfying the claim's hypothesis
word for word (a `'found'` key and the stated details shape — nothing
about a `'name'` key) on which the two extractions disagree: the missing
name defaults to `'N/A'` in the dedup-naive version but to `'Unknown'` in
the dedup-aware one, so the mappings differ at label `'N/A'`. -/
theorem C10_missing_name_counterexample :
    reachable_result_literal c10_tr = true ∧
    extract_components_issues_naive c10_tr = Except.ok [("N/A", ["PDP"])] ∧
    extract_components_issues c10_tr = [("Unknown", ["PDP"])] ∧
    issue_pages [("N/A", ["PDP"])] "N/A" ≠ issue_pages [("Unknown", ["PDP"])] "N/A" := by
  refine ⟨rfl, rfl, rfl, ?_⟩
  decide

theorem naive_component_eq_aware (pt : String) (m : IssueMap) (c : DigestComponent)
    (hc : reachable_component c = true) :
    naive_component pt m c = Except.ok (aware_component pt m c) := by
  rw [reachable_component, Bool.and_eq_true] at hc
  obtain ⟨hname, hlit⟩ := hc
  rcases c with ⟨name, found, details⟩
  obtain ⟨nm, rfl⟩ : ∃ nm, name = some nm := by
    rcases name with _ | nm
    · simp at hname
    · exact ⟨nm, rfl⟩
  rcases found with _ | b
  · simp [reachable_component_literal] at hlit
  rcases b with _ | _
  · rcases details with _ | d
    · simp [naive_component, aware_component, has_strategies]
    · simp [reachable_component_literal] at hlit
  · rcases details with _ | d
    · simp [naive_component, aware_component, has_strategies]
    · rcases d with ⟨os, hok⟩
      rcases os with _ | os
      · simp [reachable_component_literal] at hlit
      · rcases os with _ | so
        · simp [reachable_component_literal] at hlit
        · simp [naive_component, aware_component, has_strategies, details_strategies_found]

theorem naive_components_eq_aware (pt : String) :
    ∀ (cs : List DigestComponent) (m : IssueMap),
      (∀ c ∈ cs, reachable_component c = true) →
      naive_components pt m cs = Except.ok (cs.foldl (aware_component pt) m)
  | [], m, _ => rfl
  | c :: cs', m, h => by
    rw [naive_components, naive_component_eq_aware pt m c (h c (by simp))]
    exact naive_components_eq_aware pt cs' (aware_component pt m c)
      (fun c' hc' => h c' (by simp [hc']))

theorem naive_pages_eq_aware :
    ∀ (pgs : List DigestPage) (m : IssueMap),
      (∀ pg ∈ pgs, ∀ c ∈ pg.components, reachable_component c = true) →
      naive_pages m pgs = Except.ok (pgs.foldl aware_page m)
  | [], m, _ => rfl
  | pg :: pgs', m, h => by
    rw [naive_pages,
      naive_components_eq_aware (pg.page_type.getD "N/A") pg.components m
        (h pg (by simp))]
    exact naive_pages_eq_aware pgs' (aware_page m pg)
      (fun pg' hpg' => h pg' (by simp [hpg']))

/-- C10 (amended): on every TargetResult of the shape `check_component`
produces — every component record has a `'name'` key AND a `'found'` key,
and its details field is a dict containing a `'strategies'` dict only when
found is true and is `None` otherwise — the dedup-naive
`extract_components_issues` (`services/teams_service.py`) and the
dedup-aware one (`src/services/teams_service.py`) return the same
issue-label-to-page-type-set mapping (the naive one without raising).
Without the `'name'` key the two default differently (`'N/A'` vs
`'Unknown'`), which is the only obstruction. -/
theorem C10_extract_equivalence (tr : DigestResult)
    (h : reachable_result tr = true) :
    extract_components_issues_naive tr = Except.ok (extract_components_issues tr) := by
  rw [extract_components_issues_naive, extract_components_issues]
  refine naive_pages_eq_aware tr.pages [] ?_
  intro pg hpg c hc
  rw [reachable_result] at h
  rw [List.all_eq_true] at h
  have := h pg hpg
  rw [List.all_eq_true] at this
  exact this c hc

/-- The fixture of `test_optimized.py`: one page `PDP` with `Cross Sell`
absent and no strategies, one page `HOME` with a found component whose two
strategies both fail. -/
def c10_fixture : DigestResult :=
  { pages :=
      [{ page_type := some "PDP"
         components := [{ name := some "Cross Sell", found := some false, details := none }] },
       { page_type := some "HOME"
         components :=
           [{ name := some "Purchased With Recently Purchased"
              found := some true
              details := some
                { strategies := some (some
                    { strategies_found := [("Strategy 1", false), ("Strategy 2", false)] })
                  has_other_keys := false } }] }] }

theorem C10_extract_equivalence_witness :
    extract_components_issues_naive c10_fixture =
      Except.ok (extract_components_issues c10_fixture) :=
  C10_extract_equivalence c10_fixture (by decide)

/-! ## Crawl orchestrator (`src/orchestrator/scraper_orchestrator.py`; C6, C7)

One job (`_scrape_country`) per configured country.  A job's interaction
with the outside world (pages rendered, alerts generated, exceptions) is
abstracted into a `JobBehavior`; alert payloads and page results are
opaque strings.  The job body can fail before or after its
`self.alerts.extend(country_alerts)` line: an exception in
`scraper._close_browser()` — which sits after the extend, inside the same
`try` — loses the result but keeps the alerts in the orchestrator's
accumulator.  `run` joins the futures in completion order (`as_completed`),
modelled by the `arrival` permutation of the configured countries; only
the counters the claims speak about are modelled (`execution_time` and the
timestamps are presentation data). -/

/-- The dict `_scrape_country` returns: `alerts_count` and `pages` are
present on success only, `error` on failure only. -/
structure TargetResult where
  country : String
  status : String
  alerts_count : Option Nat
  pages : Option (List String)
  error : Option String
  timestamp : String
  deriving Repr, DecidableEq

inductive JobBehavior where
  /-- The try-block runs to completion: page results, generated alerts. -/
  | completes (pages : List String) (alerts : List String) (ts : String)
  /-- An exception before `self.alerts.extend` (scraper construction, a
  non-dict page config, …). -/
  | fails_before (err : String) (ts : String)
  /-- An exception after `self.alerts.extend` (browser release): the
  alerts are already in the orchestrator's accumulator. -/
  | fails_after (alerts : List String) (err : String) (ts : String)
  deriving Repr, DecidableEq

def is_fails_after : JobBehavior → Bool
  | .fails_after _ _ _ => true
  | _ => false

/-- The `try` block of `_scrape_country`: on success the page results,
the alerts appended to `self.alerts` and the timestamp; on an exception
the message plus whatever alerts were already appended. -/
def job_body : JobBehavior →
    Except (String × List String × String) (List String × List String × String)
  | .completes ps as ts => .ok (ps, as, ts)
  | .fails_before e ts => .error (e, [], ts)
  | .fails_after as e ts => .error (e, as, ts)

/-- `_scrape_country`: the job's returned `TargetResult` and the alerts it
appended to the shared accumulator.  The function is total: the
`except Exception` boundary converts every body exception into a
`status='failed'` result. -/
def scrape_country (country : String) (b : JobBehavior) : TargetResult × List String :=
  match job_body b with
  | .ok (ps, as, ts) =>
    ({ country := country, status := "success", alerts_count := some as.length
       pages := some ps, error := none, timestamp := ts }, as)
  | .error (e, as, ts) =>
    ({ country := country, status := "failed", alerts_count := none
       pages := none, error := some e, timestamp := ts }, as)

/-- The aggregate report `run` builds (the counters the claims concern;
`total_countries` is the key the source uses for the spec's
`total_targets`). -/
structure RunReport where
  total_countries : Nat
  successful : Nat
  failed : Nat
  total_alerts : Nat
  results : List TargetResult
  deriving Repr, DecidableEq

/-- `ScraperOrchestrator.run` from the initial (fresh-orchestrator) state:
one job per configured country, results collected in completion order
`arrival`, counters computed as the source does — `successful` and
`failed` by counting statuses in `self.results`, `total_countries` from
the configuration, `total_alerts` as `len(self.alerts)`. -/
def orchestrator_run (config : List String) (behaviors : String → JobBehavior)
    (arrival : List String) : RunReport :=
  let outcomes := arrival.map (fun c => scrape_country c (behaviors c))
  let results := outcomes.map Prod.fst
  let alerts := (outcomes.map Prod.snd).flatten
  { total_countries := config.length
    successful := (results.filter (fun r => r.status = "success")).length
    failed := (results.filter (fun r => r.status = "failed")).length
    total_alerts := alerts.length
    results := results }

/-- C6: failures never cross the target-job boundary as exceptions: for
every country and every exception the job body raises, `_scrape_country`
catches it and returns a `TargetResult` with `status='failed'` and the
error string — `scrape_country` is a total function, so the orchestrator
only ever observes structured results. -/
theorem C6_job_boundary_catches (country : String) (b : JobBehavior) (e : String)
    (as : List String) (ts : String)
    (h : job_body b = Except.error (e, as, ts)) :
    (scrape_country country b).1.status = "failed" ∧
    (scrape_country country b).1.error = some e := by
  rw [scrape_country, h]
  exact ⟨rfl, rfl⟩

theorem C6_job_boundary_witness :
    (scrape_country "cl" (JobBehavior.fails_before "boom" "t0")).1.status = "failed" ∧
    (scrape_country "cl" (JobBehavior.fails_before "boom" "t0")).1.error = some "boom" :=
  C6_job_boundary_catches "cl" (JobBehavior.fails_before "boom" "t0") "boom" [] "t0" rfl

def c7_behaviors : String → JobBehavior :=
  fun _ => JobBehavior.fails_after ["a1"] "PlaywrightError: browser close failed" "t1"

/-- C7 counterexample: one configured country whose job generates one
alert, extends `self.alerts` with it, and then raises while releasing the
browser.  The report counts `total_alerts = len(self.alerts) = 1`, but the
only collected result is `failed` and carries no `alerts_count`, so the
sum of the targets' `alerts_count` is 0 — the claimed equality fails. -/
theorem C7_total_alerts_counterexample :
    (orchestrator_run ["cl"] c7_behaviors ["cl"]).total_alerts = 1 ∧
    ((orchestrator_run ["cl"] c7_behaviors ["cl"]).results.map
      (fun r => r.alerts_count.getD 0)).sum = 0 ∧
    (orchestrator_run ["cl"] c7_behaviors ["cl"]).total_countries = 1 ∧
    (orchestrator_run ["cl"] c7_behaviors ["cl"]).successful = 0 ∧
    (orchestrator_run ["cl"] c7_behaviors ["cl"]).failed = 1 :=
  ⟨rfl, rfl, rfl, rfl, rfl⟩

theorem scrape_country_alerts_len (c : String) (b : JobBehavior)
    (h : is_fails_after b = false) :
    (scrape_country c b).2.length = (scrape_country c b).1.alerts_count.getD 0 := by
  cases b with
  | completes ps as ts => simp [scrape_country, job_body]
  | fails_before e ts => simp [scrape_country, job_body]
  | fails_after as e ts => simp [is_fails_after] at h

/-- C7 (amended): for every run over a fresh orchestrator —
`arrival` any completion-order permutation of the configured countries —
the report satisfies: `successful` counts results with status `success`,
`failed` counts results with status `failed`, `total_countries` (the
spec's `total_targets`) equals the number of configured targets, which
also equals the number of collected results; and PROVIDED no job raises
after its `self.alerts.extend` step (e.g. while releasing the browser),
`total_alerts = len(self.alerts)` equals the sum of the targets'
`alerts_count`.  Without that proviso the last equality can fail
(`C7_total_alerts_counterexample`). -/
theorem C7_run_report_counters (config : List String) (behaviors : String → JobBehavior)
    (arrival : List String) (hperm : arrival.Perm config)
    (hnoafter : ∀ c ∈ arrival, is_fails_after (behaviors c) = false) :
    (orchestrator_run config behaviors arrival).successful =
      ((orchestrator_run config behaviors arrival).results.filter
        (fun r => r.status = "success")).length ∧
    (orchestrator_run config behaviors arrival).failed =
      ((orchestrator_run config behaviors arrival).results.filter
        (fun r => r.status = "failed")).length ∧
    (orchestrator_run config behaviors arrival).total_countries = config.length ∧
    (orchestrator_run config behaviors arrival).results.length = config.length ∧
    (orchestrator_run config behaviors arrival).total_alerts =
      ((orchestrator_run config behaviors arrival).results.map
        (fun r => r.alerts_count.getD 0)).sum := by
  refine ⟨rfl, rfl, rfl, ?_, ?_⟩
  · simpa [orchestrator_run] using hperm.length_eq
  · rw [orchestrator_run]
    simp only [List.map_map, List.length_flatten]
    congr 1
    refine List.map_congr_left ?_
    intro c hc
    exact scrape_country_alerts_len c (behaviors c) (hnoafter c hc)

def c7w_behaviors : String → JobBehavior :=
  fun c =>
    if c = "cl" then JobBehavior.completes ["p1"] ["a1", "a2"] "t1"
    else JobBehavior.fails_before "net down" "t2"

theorem C7_run_report_counters_witness :
    (orchestrator_run ["cl", "ar"] c7w_behaviors ["ar", "cl"]).successful =
      ((orchestrator_run ["cl", "ar"] c7w_behaviors ["ar", "cl"]).results.filter
        (fun r => r.status = "success")).length ∧
    (orchestrator_run ["cl", "ar"] c7w_behaviors ["ar", "cl"]).failed =
      ((orchestrator_run ["cl", "ar"] c7w_behaviors ["ar", "cl"]).results.filter
        (fun r => r.status = "failed")).length ∧
    (orchestrator_run ["cl", "ar"] c7w_behaviors ["ar", "cl"]).total_countries = 2 ∧
    (orchestrator_run ["cl", "ar"] c7w_behaviors ["ar", "cl"]).results.length = 2 ∧
    (orchestrator_run ["cl", "ar"] c7w_behaviors ["ar", "cl"]).total_alerts =
      ((orchestrator_run ["cl", "ar"] c7w_behaviors ["ar", "cl"]).results.map
        (fun r => r.alerts_count.getD 0)).sum := by
  have h := C7_run_report_counters ["cl", "ar"] c7w_behaviors ["ar", "cl"]
    (by decide) (by decide)
  simpa using h
